import Mathlib

set_option maxHeartbeats 1000000

/-!
Verification development for the Web-Scraper-Service extraction engine.

The Python sources (src/scrapers/base.py, url_scraper.py, text_scraper.py)
are shallowly embedded below.  Strings are modelled as `List Char`; the
Python `requests` fetch, the `BeautifulSoup` HTML parser and the stdlib
`urljoin` are external collaborators and enter the model as explicit
parameters (a fetch outcome, a parse function, a join function), while the
repository's own logic (validation, classification, noise removal, text
normalization, envelope construction) is translated directly.
-/

namespace WebScraper

/-!
Python character classes.  `pyIsSpace` models the whitespace class used by
`str.strip()` / `str.split()` / `re \s` (ASCII whitespace plus the
common Unicode members); `isLineBoundary` models the boundary set of
`str.splitlines()`.  Every line boundary is whitespace, and the plain
space `' '` is whitespace but never a line boundary.
-/

def pyIsSpace (c : Char) : Bool :=
  c == ' ' || c == '\t' || c == '\n' || c == '\r' || c == '\x0b' || c == '\x0c' ||
  c == '\x1c' || c == '\x1d' || c == '\x1e' || c == '\x85' ||
  c == '\u2028' || c == '\u2029' || c == '\u00A0'

def isLineBoundary (c : Char) : Bool :=
  c == '\n' || c == '\r' || c == '\x0b' || c == '\x0c' ||
  c == '\x1c' || c == '\x1d' || c == '\x1e' || c == '\x85' ||
  c == '\u2028' || c == '\u2029'

/-- Python `str.strip()`: drop whitespace from both ends. -/
def pyStrip (l : List Char) : List Char :=
  ((l.dropWhile pyIsSpace).reverse.dropWhile pyIsSpace).reverse

/-- Collapse each `\r\n` pair to a single `\n` (the one two-character
line boundary recognised by `str.splitlines()`). -/
def normCRLF : List Char → List Char
  | [] => []
  | [c] => [c]
  | a :: b :: rest =>
    if a == '\r' && b == '\n' then '\n' :: normCRLF rest
    else a :: normCRLF (b :: rest)

/-- Worker for `splitlinesPy`, accumulating the current line reversed. -/
def splitlinesAux (l acc : List Char) : List (List Char) :=
  match l with
  | [] => [acc.reverse]
  | c :: rest =>
    if isLineBoundary c then
      if rest.isEmpty then [acc.reverse] else acc.reverse :: splitlinesAux rest []
    else
      splitlinesAux rest (c :: acc)

/-- Python `str.splitlines()` (after collapsing `\r\n`): split at line
boundaries, no trailing empty line for a trailing boundary, `[]` on `""`. -/
def splitlinesPy (l : List Char) : List (List Char) :=
  if l = [] then [] else splitlinesAux (normCRLF l) []

/-- Worker for `splitTwoSpaces`. -/
def splitTwoSpacesAux (l acc : List Char) : List (List Char) :=
  match l with
  | [] => [acc.reverse]
  | [c] => [(c :: acc).reverse]
  | a :: b :: rest =>
    if a == ' ' && b == ' ' then acc.reverse :: splitTwoSpacesAux rest []
    else splitTwoSpacesAux (b :: rest) (a :: acc)

/-- Python `line.split("  ")`: split at each non-overlapping occurrence of
two consecutive spaces, scanning left to right. -/
def splitTwoSpaces (l : List Char) : List (List Char) :=
  splitTwoSpacesAux l []

/-- Python `re.sub(r"\s+", " ", s)`: replace every maximal run of
whitespace characters by a single space. -/
def collapseWs : List Char → List Char
  | [] => []
  | c :: rest =>
    let r := collapseWs rest
    if pyIsSpace c then (if r.head? == some ' ' then r else ' ' :: r)
    else c :: r

/-- Worker for `pySplitWs`, accumulating the current token reversed. -/
def pySplitWsAux (l acc : List Char) : List (List Char) :=
  match l with
  | [] => if acc.isEmpty then [] else [acc.reverse]
  | c :: rest =>
    if pyIsSpace c then
      if acc.isEmpty then pySplitWsAux rest [] else acc.reverse :: pySplitWsAux rest []
    else
      pySplitWsAux rest (c :: acc)

/-- Python `str.split()` with no argument: whitespace-delimited tokens,
runs of whitespace act as one delimiter, no empty tokens. -/
def pySplitWs (l : List Char) : List (List Char) :=
  pySplitWsAux l []

/-- TextScraper._clean_text: split into lines and strip each, split each
line on double spaces and strip each fragment, join the non-empty
fragments with single spaces, collapse remaining whitespace runs, strip. -/
def cleanText (t : List Char) : List Char :=
  let lines := (splitlinesPy t).map pyStrip
  let chunks := (lines.map (fun line => (splitTwoSpaces line).map pyStrip)).flatten
  let joined := List.intercalate [' '] (chunks.filter (fun c => !c.isEmpty))
  pyStrip (collapseWs joined)

/-!
HTML document model.  A parsed document (BeautifulSoup tree) is a forest
of nodes; an element node carries its (lowercased) tag name, its
attribute list and its children.  Multi-valued attributes (`class`) are
kept as the raw attribute string.
-/

mutual

inductive Node where
  | text (s : List Char) : Node
  | elem (tag : List Char) (attrs : List (List Char × List Char)) (children : NodeList) : Node

inductive NodeList where
  | nil : NodeList
  | cons (n : Node) (l : NodeList) : NodeList

end

/-- Build a `NodeList` from an ordinary list of nodes. -/
def nl : List Node → NodeList
  | [] => NodeList.nil
  | n :: rest => NodeList.cons n (nl rest)

/-- Tag.get(key): first binding of an attribute name, if present. -/
def attrOf (a : List (List Char × List Char)) (k : List Char) : Option (List Char) :=
  (a.find? (fun p => p.1 == k)).map (fun p => p.2)

/-- Python `sub in s` substring test. -/
def containsSub (needle hay : List Char) : Bool :=
  match hay with
  | [] => needle.isEmpty
  | c :: rest => needle.isPrefixOf (c :: rest) || containsSub needle rest

mutual

/-- Descendant strings of a node, in document order (Tag.strings). -/
def textsOfNode : Node → List (List Char)
  | Node.text s => [s]
  | Node.elem _ _ cs => textsOfForest cs

/-- All descendant strings of a forest, in document order. -/
def textsOfForest : NodeList → List (List Char)
  | NodeList.nil => []
  | NodeList.cons n rest => textsOfNode n ++ textsOfForest rest

end

/-- Tag.get_text(): concatenation of all descendant strings. -/
def getTextForest (d : NodeList) : List Char :=
  (textsOfForest d).flatten

/-- Tag.get_text(strip=True): concatenation of the individually stripped
descendant strings. -/
def getTextStripNode (n : Node) : List Char :=
  ((textsOfNode n).map pyStrip).flatten

mutual

/-- soup.find_all restricted to one node and its descendants. -/
def findAllNode (p : List Char → List (List Char × List Char) → Bool) : Node → List Node
  | Node.text _ => []
  | Node.elem t a cs =>
    (if p t a then [Node.elem t a cs] else []) ++ findAllForest p cs

/-- soup.find_all with an element predicate on (tag, attrs): all matching
elements of the forest in document order (pre-order). -/
def findAllForest (p : List Char → List (List Char × List Char) → Bool) : NodeList → List Node
  | NodeList.nil => []
  | NodeList.cons n rest => findAllNode p n ++ findAllForest p rest

end

/-- soup.find with an element predicate: first match in document order. -/
def findFirst (p : List Char → List (List Char × List Char) → Bool) (d : NodeList) : Option Node :=
  (findAllForest p d).head?

def kScript : List Char := "script".data
def kStyle : List Char := "style".data
def kNav : List Char := "nav".data
def kHeaderTag : List Char := "header".data
def kFooter : List Char := "footer".data
def kAside : List Char := "aside".data
def kMenu : List Char := "menu".data
def kSidebar : List Char := "sidebar".data
def kClass : List Char := "class".data
def kId : List Char := "id".data
def kTitleTag : List Char := "title".data
def kMeta : List Char := "meta".data
def kProperty : List Char := "property".data
def kContent : List Char := "content".data
def kNameAttr : List Char := "name".data
def kOgTitle : List Char := "og:title".data
def kOgDescription : List Char := "og:description".data
def kDescription : List Char := "description".data
def kH1 : List Char := "h1".data
def kH2 : List Char := "h2".data
def kH3 : List Char := "h3".data
def kH4 : List Char := "h4".data
def kH5 : List Char := "h5".data
def kH6 : List Char := "h6".data

/-- Tags decomposed by TextScraper._remove_unwanted_elements: script and
style, then the structural tags nav, header, footer, aside. -/
def noiseTags : List (List Char) := [kScript, kStyle, kNav, kHeaderTag, kFooter, kAside]

/-- Substrings matched by the unwanted `[class*=...]` / `[id*=...]`
selectors of _remove_unwanted_elements. -/
def noiseSubs : List (List Char) := [kNav, kMenu, kSidebar, kFooter, kHeaderTag]

/-- TextScraper._remove_unwanted_elements match condition for a single
element: a noise tag, or a class or id attribute containing one of the
noise substrings.  The three decompose passes of the Python code are
cumulative, so their net effect is removal of every element matching this
disjunction together with its whole subtree. -/
def isNoiseElem (tag : List Char) (attrs : List (List Char × List Char)) : Bool :=
  noiseTags.contains tag ||
  (match attrOf attrs kClass with
   | some v => noiseSubs.any (fun s => containsSub s v)
   | none => false) ||
  (match attrOf attrs kId with
   | some v => noiseSubs.any (fun s => containsSub s v)
   | none => false)

mutual

/-- TextScraper._remove_unwanted_elements: decompose (delete with the
whole subtree) every matching element of the forest. -/
def removeNoiseForest : NodeList → NodeList
  | NodeList.nil => NodeList.nil
  | NodeList.cons (Node.text s) rest => NodeList.cons (Node.text s) (removeNoiseForest rest)
  | NodeList.cons (Node.elem t a cs) rest =>
    if isNoiseElem t a then removeNoiseForest rest
    else NodeList.cons (Node.elem t a (removeNoiseForest cs)) (removeNoiseForest rest)

/-- Noise removal applied below a single non-noise node. -/
def removeNoiseNode : Node → Node
  | Node.text s => Node.text s
  | Node.elem t a cs => Node.elem t a (removeNoiseForest cs)

end

mutual

/-- Reference traversal for the noise-removal theorems, one node: collect
the matching elements in document order, skipping every noise subtree
(a match at or below a noise element is never collected). -/
def findSkipNode (p : List Char → List (List Char × List Char) → Bool) : Node → List Node
  | Node.text _ => []
  | Node.elem t a cs =>
    if isNoiseElem t a then []
    else (if p t a then [Node.elem t a cs] else []) ++ findSkipForest p cs

/-- Reference traversal for the noise-removal theorems, forest version. -/
def findSkipForest (p : List Char → List (List Char × List Char) → Bool) : NodeList → List Node
  | NodeList.nil => []
  | NodeList.cons n rest => findSkipNode p n ++ findSkipForest p rest

end

/-- Element predicate matching a fixed tag name. -/
def tagIs (tag : List Char) : List Char → List (List Char × List Char) → Bool :=
  fun t _ => t == tag

/-- Element predicate for soup.find('meta', attrs=...): tag `meta` with
the given attribute equal to the given value. -/
def metaWith (key val : List Char) : List Char → List (List Char × List Char) → Bool :=
  fun t a => t == kMeta && (attrOf a key == some val)

/-- Tag.get('content', ''). -/
def contentOf : Node → List Char
  | Node.text _ => []
  | Node.elem _ a _ => (attrOf a kContent).getD []

/-- TextScraper._extract_title: the `<title>` element's stripped text if a
`<title>` element exists, else the og:title meta's content attribute if
such a meta exists, else the first `<h1>`'s stripped text if one exists,
else the empty string.  A found tag is always truthy in bs4, so each step
fires on element presence, regardless of whether its text is empty. -/
def extractTitle (d : NodeList) : List Char :=
  match findFirst (tagIs kTitleTag) d with
  | some t => getTextStripNode t
  | none =>
    match findFirst (metaWith kProperty kOgTitle) d with
    | some m => contentOf m
    | none =>
      match findFirst (tagIs kH1) d with
      | some h => getTextStripNode h
      | none => []

/-- TextScraper._extract_meta_description: `meta[name=description]`
content if present, else `og:description` content, else empty. -/
def extractMetaDescription (d : NodeList) : List Char :=
  match findFirst (metaWith kNameAttr kDescription) d with
  | some m => contentOf m
  | none =>
    match findFirst (metaWith kProperty kOgDescription) d with
    | some m => contentOf m
    | none => []

/-- The headings dictionary of TextScraper._extract_headings: for each
level, the stripped text of every heading element in document order. -/
structure Headings where
  h1 : List (List Char)
  h2 : List (List Char)
  h3 : List (List Char)
  h4 : List (List Char)
  h5 : List (List Char)
  h6 : List (List Char)
deriving DecidableEq

/-- TextScraper._extract_headings. -/
def extractHeadings (d : NodeList) : Headings where
  h1 := (findAllForest (tagIs kH1) d).map getTextStripNode
  h2 := (findAllForest (tagIs kH2) d).map getTextStripNode
  h3 := (findAllForest (tagIs kH3) d).map getTextStripNode
  h4 := (findAllForest (tagIs kH4) d).map getTextStripNode
  h5 := (findAllForest (tagIs kH5) d).map getTextStripNode
  h6 := (findAllForest (tagIs kH6) d).map getTextStripNode

/-- Payload of a successful text extraction
(TextScraper._extract_text_content). -/
structure TextData where
  text : List Char
  title : List Char
  meta_description : List Char
  headings : Headings
  word_count : Nat
  character_count : Nat
deriving DecidableEq

/-- TextScraper._extract_text_content: remove the unwanted elements, then
extract and clean the text and compute title, meta description, headings
and the counts, all on the mutated (noise-free) tree. -/
def extractTextContent (d : NodeList) : TextData :=
  let d' := removeNoiseForest d
  let cleaned := cleanText (getTextForest d')
  { text := cleaned
    title := extractTitle d'
    meta_description := extractMetaDescription d'
    headings := extractHeadings d'
    word_count := (pySplitWs cleaned).length
    character_count := cleaned.length }

/-!
BaseScraper.validate_url and the URL scraper
(src/scrapers/base.py, src/scrapers/url_scraper.py).
-/

def msgUrlEmpty : List Char := "URL cannot be empty".data
def kHttpPre : List Char := "http://".data
def kHttpsPre : List Char := "https://".data

/-- BaseScraper.validate_url: reject a falsy (empty) input, otherwise
strip surrounding whitespace and prepend `https://` when the stripped
string does not start with `http://` or `https://`.  The Python function
returns a `(normalized, error)` pair with exactly one side set, modelled
as `Except`. -/
def validate_url (url : List Char) : Except (List Char) (List Char) :=
  if url.isEmpty then Except.error msgUrlEmpty
  else
    let u := pyStrip url
    if kHttpPre.isPrefixOf u || kHttpsPre.isPrefixOf u then Except.ok u
    else Except.ok (kHttpsPre ++ u)

def kMailto : List Char := "mailto:".data
def kTel : List Char := "tel:".data
def kFtpColon : List Char := "ftp:".data
def kFtpSlashes : List Char := "ftp://".data
def kJavascriptColon : List Char := "javascript:".data
def kEmail : List Char := "email".data
def kPhone : List Char := "phone".data
def kFtpType : List Char := "ftp".data
def kAnchorType : List Char := "anchor".data
def kJavascriptType : List Char := "javascript".data
def kFileType : List Char := "file".data
def kWebType : List Char := "web".data

/-- Lowercased file-name suffixes classified as downloadable files by
URLScraper._get_link_type. -/
def fileExts : List (List Char) :=
  [".pdf".data, ".doc".data, ".docx".data, ".xls".data, ".xlsx".data, ".zip".data, ".rar".data]

/-- Python str.lower() (ASCII behaviour, which is what hrefs use). -/
def lowerList (l : List Char) : List Char :=
  l.map Char.toLower

/-- URLScraper._get_link_type: the if/elif chain classifying an href by
its scheme prefix, then by its lowercase suffix, else `web`. -/
def getLinkType (href : List Char) : List Char :=
  if kMailto.isPrefixOf href then kEmail
  else if kTel.isPrefixOf href then kPhone
  else if kFtpColon.isPrefixOf href then kFtpType
  else if href.head? == some '#' then kAnchorType
  else if kJavascriptColon.isPrefixOf href then kJavascriptType
  else if fileExts.any (fun e => e.isSuffixOf (lowerList href)) then kFileType
  else kWebType

def kDoubleSlash : List Char := "//".data

/-!
Model of urllib.parse.urlparse(url).netloc as of CPython 3.11
(urlsplit), including its failure modes: `pyNetloc` returns `none`
exactly where urlsplit raises ValueError — a mismatched bracket in the
authority, an invalid bracketed (IPv6/IPvFuture) host, or an NFKC
normalization of the authority that would introduce a URL separator.
This is the exception that URLScraper._is_external_link's try/except
converts to False.
-/

/-- Characters allowed in a URL scheme after the initial letter
(urllib.parse.scheme_chars). -/
def schemeChar (c : Char) : Bool :=
  c.isAlpha || c.isDigit || c == '+' || c == '-' || c == '.'

/-- The WHATWG C0-control-or-space class stripped from the front of the
url by urlsplit. -/
def c0ControlOrSpace (c : Char) : Bool :=
  c.val ≤ 0x20

/-- The unsafe bytes removed from anywhere in the url by urlsplit. -/
def tabCrLf (c : Char) : Bool :=
  c == '\t' || c == '\r' || c == '\n'

/-- urlsplit's input preparation: lstrip C0 controls and space, remove
every tab, CR and LF. -/
def urlPrep (url : List Char) : List Char :=
  (url.dropWhile c0ControlOrSpace).filter (fun c => !tabCrLf c)

/-- urlsplit's scheme removal: when everything before the first colon is
a non-empty run of scheme characters starting with an ASCII letter, drop
it together with the colon. -/
def dropScheme (l : List Char) : List Char :=
  let pre := l.takeWhile schemeChar
  if !pre.isEmpty && (l.drop pre.length).head? == some ':' &&
      (pre.head?.map Char.isAlpha).getD false then
    l.drop (pre.length + 1)
  else l

/-- The delimiters ending the authority (urllib.parse._splitnetloc). -/
def netlocDelim (c : Char) : Bool :=
  c == '/' || c == '?' || c == '#'

/-- Python str.split(sep) for a one-character separator: split at every
occurrence, keeping empty pieces. -/
def splitOnAux (sep : Char) (l acc : List Char) : List (List Char) :=
  match l with
  | [] => [acc.reverse]
  | c :: rest =>
    if c == sep then acc.reverse :: splitOnAux sep rest []
    else splitOnAux sep rest (c :: acc)

def splitOn (sep : Char) (l : List Char) : List (List Char) :=
  splitOnAux sep l []

def hexCh (c : Char) : Bool :=
  c.isDigit || ('a' ≤ c && c ≤ 'f') || ('A' ≤ c && c ≤ 'F')

def decVal (l : List Char) : Nat :=
  l.foldl (fun n c => n * 10 + (c.toNat - '0'.toNat)) 0

/-- ipaddress._BaseV4._parse_octet: 1-3 ASCII decimal digits, no leading
zero except "0" itself, value at most 255. -/
def ipv4OctetOk (s : List Char) : Bool :=
  !s.isEmpty && s.all Char.isDigit && s.length ≤ 3 &&
  (s.head? != some '0' || s.length == 1) && decVal s ≤ 255

/-- ipaddress._BaseV4._ip_int_from_string validity: exactly four valid
octets. -/
def ipv4Ok (s : List Char) : Bool :=
  !s.isEmpty && (splitOn '.' s).length == 4 && (splitOn '.' s).all ipv4OctetOk

/-- ipaddress._BaseV6._parse_hextet validity: 1-4 hex digits. -/
def hextetOk (s : List Char) : Bool :=
  !s.isEmpty && s.all hexCh && s.length ≤ 4

/-- The part-list checks of ipaddress._BaseV6._ip_int_from_string after
the optional IPv4 suffix has been replaced by two hextets: at most 9
parts, at most one empty middle part (the `::`), an empty endpoint only
adjacent to that `::`, at most 7 explicit groups beside a `::` (or
exactly 8 groups without one), and every copied part a valid hextet. -/
def ipv6PartsOk (parts : List (List Char)) : Bool :=
  let n := parts.length
  if 9 < n then false
  else
    match (List.range n).filter
        (fun i => decide (0 < i) && decide (i < n - 1) && (parts.getD i []).isEmpty) with
    | [] => n == 8 && parts.all hextetOk
    | [i] =>
      let headEmpty := (parts.head?.getD []).isEmpty
      let lastEmpty := (parts.getLast?.getD []).isEmpty
      if headEmpty && i - 1 != 0 then false
      else if lastEmpty && n - i - 2 != 0 then false
      else
        let hi := if headEmpty then i - 1 else i
        let lo := if lastEmpty then n - i - 2 else n - i - 1
        if 7 < hi + lo then false
        else (parts.take hi).all hextetOk && (parts.drop (n - lo)).all hextetOk
    | _ => false

/-- ipaddress._BaseV6._ip_int_from_string validity: non-empty, at least
three colon-separated parts, an optional trailing IPv4 suffix (itself
valid) standing for two hextets, then the part-list checks. -/
def ipv6AddrOk (s : List Char) : Bool :=
  if s.isEmpty then false
  else
    let parts0 := splitOn ':' s
    if parts0.length < 3 then false
    else
      let lastPart := parts0.getLast?.getD []
      if lastPart.contains '.' then
        ipv4Ok lastPart && ipv6PartsOk (parts0.dropLast ++ [['0'], ['0']])
      else ipv6PartsOk parts0

/-- ipaddress.IPv6Address with optional scope id: an optional `%scope`
suffix (scope non-empty, no further `%`) after a valid address. -/
def ipv6Ok (s : List Char) : Bool :=
  let addr := s.takeWhile (fun c => c != '%')
  match s.drop addr.length with
  | [] => ipv6AddrOk addr
  | _ :: scope => !scope.isEmpty && !scope.contains '%' && ipv6AddrOk addr

/-- The IPvFuture regex of urllib.parse._check_bracketed_host:
`v`, one or more hex digits, a dot, then a non-empty newline-free rest. -/
def ipvFutureOk (h : List Char) : Bool :=
  match h with
  | 'v' :: rest =>
    let hx := rest.takeWhile hexCh
    let after := rest.drop hx.length
    !hx.isEmpty && after.head? == some '.' && !(after.drop 1).isEmpty &&
      !(after.drop 1).contains '\n'
  | _ => false

/-- urllib.parse._check_bracketed_host: a host starting with `v` must
match the IPvFuture shape; otherwise it must be a valid IPv6 address
(an IPv4 address, valid or not, is rejected — IPv4 is never valid IPv6
since IPv6 needs at least two colons). -/
def bracketedHostOk (h : List Char) : Bool :=
  match h with
  | 'v' :: _ => ipvFutureOk h
  | _ => ipv6Ok h

/-- The bracketed host inspected by urlsplit: the text after the first
`[` of the authority, up to the next `]` (or its end). -/
def bracketedHostOf (nloc : List Char) : List Char :=
  ((nloc.dropWhile (fun c => c != '[')).drop 1).takeWhile (fun c => c != ']')

/-- The non-ASCII characters whose NFKC normalization contains one of
`/?#@:`, which make urllib.parse._checknetloc raise (exhaustive over
Unicode 14, as shipped with CPython 3.11). -/
def nfkcSeparatorChar (c : Char) : Bool :=
  c == '⁇' || c == '⁈' || c == '⁉' || c == '℀' || c == '℁' ||
  c == '℅' || c == '℆' || c == '⩴' || c == '︓' || c == '︖' ||
  c == '﹕' || c == '﹖' || c == '﹟' || c == '﹫' ||
  c == '＃' || c == '／' || c == '：' || c == '？' || c == '＠'

/-- urllib.parse.urlparse(url).netloc with its failure modes: `none`
where urlsplit raises ValueError.  The authority is present only when,
after input preparation and scheme removal, the string continues with
`//`; it extends to the next `/`, `?` or `#`. -/
def pyNetloc (url : List Char) : Option (List Char) :=
  let u := dropScheme (urlPrep url)
  if kDoubleSlash.isPrefixOf u then
    let nloc := (u.drop 2).takeWhile (fun c => !netlocDelim c)
    if (nloc.contains '[' && !nloc.contains ']') ||
        (nloc.contains ']' && !nloc.contains '[') then none
    else if nloc.contains '[' && nloc.contains ']' &&
        !bracketedHostOk (bracketedHostOf nloc) then none
    else if nloc.any nfkcSeparatorChar then none
    else some nloc
  else
    some []

/-- URLScraper._is_external_link: parse both hosts inside a try/except;
on success the link is external iff its host differs from the base host
and is non-empty; any parsing failure (ValueError from urlparse) lands
in the except branch, which returns False. -/
def isExternalLink (linkUrl baseUrl : List Char) : Bool :=
  match pyNetloc linkUrl, pyNetloc baseUrl with
  | some linkDomain, some baseDomain => linkDomain != baseDomain && !linkDomain.isEmpty
  | _, _ => false

/-- One entry of the URL scraper's `urls` payload
(URLScraper._extract_links, the `link_obj` dict).  The Python key
`class` is modelled by the field `cls`. -/
structure Link where
  id : Nat
  url : List Char
  original_href : List Char
  text : List Char
  title : List Char
  cls : List Char
  is_relative : Bool
  is_external : Bool
  link_type : List Char
deriving DecidableEq

def kATag : List Char := "a".data
def kHref : List Char := "href".data

/-- soup.find_all('a', href=True): anchor elements carrying an href. -/
def anchorWithHref : List Char → List (List Char × List Char) → Bool :=
  fun t a => t == kATag && (attrOf a kHref).isSome

def hrefOf : Node → List Char
  | Node.text _ => []
  | Node.elem _ a _ => (attrOf a kHref).getD []

def titleAttrOf : Node → List Char
  | Node.text _ => []
  | Node.elem _ a _ => (attrOf a kTitleTag).getD []

/-- anchor.get('class', []) joined with single spaces; bs4 splits the
class attribute on whitespace into a list, so the join collapses the
attribute's whitespace runs. -/
def classJoined : Node → List Char
  | Node.text _ => []
  | Node.elem _ a _ => List.intercalate [' '] (pySplitWs ((attrOf a kClass).getD []))

/-- Prefixes that make an href non-relative (URLScraper._extract_links). -/
def relPrefixes : List (List Char) :=
  [kHttpPre, kHttpsPre, kMailto, kTel, kFtpSlashes]

/-- URLScraper._extract_links: enumerate the anchors with an href in
document order and build a link object for each.  The stdlib
urllib.parse.urljoin enters as the parameter `uj`. -/
def extractLinks (uj : List Char → List Char → List Char)
    (d : NodeList) (base : List Char) : List Link :=
  (List.enum (findAllForest anchorWithHref d)).map (fun pr =>
    let a := pr.2
    let href := hrefOf a
    { id := pr.1 + 1
      url := uj base href
      original_href := href
      text := getTextStripNode a
      title := titleAttrOf a
      cls := classJoined a
      is_relative := !(relPrefixes.any (fun p => p.isPrefixOf href))
      is_external := isExternalLink (uj base href) base
      link_type := getLinkType href })

/-!
Response envelopes.  The Python scrapers return dicts whose key sets
differ between code paths, so an envelope is modelled as an ordered
association list from field names to values.  Wall-clock processing time
and the UTC timestamp are environment inputs and enter as parameters.
-/

inductive Val where
  | vb (b : Bool)
  | vn (n : Nat)
  | vs (s : List Char)
  | vnone
  | vlinks (ls : List Link)
  | vheads (hs : List (List Char × List (List Char)))
deriving DecidableEq

abbrev Envelope := List (List Char × Val)

/-- Field names of an envelope, in order. -/
def envKeys (e : Envelope) : List (List Char) :=
  e.map (fun p => p.1)

/-- Value of a field of an envelope, if present. -/
def envGet (e : Envelope) (k : List Char) : Option Val :=
  (e.find? (fun p => p.1 == k)).map (fun p => p.2)

def fSuccess : List Char := "success".data
def fText : List Char := "text".data
def fTitle : List Char := "title".data
def fMetaDescription : List Char := "meta_description".data
def fHeadings : List Char := "headings".data
def fWordCount : List Char := "word_count".data
def fCharacterCount : List Char := "character_count".data
def fProcessingTime : List Char := "processing_time".data
def fTimestamp : List Char := "timestamp".data
def fError : List Char := "error".data
def fUrls : List Char := "urls".data
def fCount : List Char := "count".data

/-- BaseScraper.create_error_response: success flag, timing, timestamp
and the error string only — no payload fields. -/
def createErrorResponse (msg : List Char) (pt : Nat) (ts : List Char) : Envelope :=
  [(fSuccess, Val.vb false), (fProcessingTime, Val.vn pt),
   (fTimestamp, Val.vs ts), (fError, Val.vs msg)]

/-- Outcome of the single HTTP GET (requests.Session.get followed by
raise_for_status), as seen by the `try` block of each scrape method:
a body, or one of the exception classes handled by
BaseScraper.handle_request_errors.  `otherError` also stands for any
unexpected exception raised later inside the `try` block. -/
inductive FetchOutcome where
  | ok (body : List Char)
  | timeout (msg : List Char)
  | requestError (msg : List Char)
  | otherError (msg : List Char)

def msgTimeoutPre : List Char := "Request timeout after ".data
def msgTimeoutSuf : List Char := " seconds".data
def msgRequestFailedPre : List Char := "Request failed: ".data
def msgUnexpectedPre : List Char := "Unexpected error: ".data

/-- Error message chosen by BaseScraper.handle_request_errors
(isinstance Timeout first, then RequestException, then the catch-all). -/
def errMsgOf (timeoutSecs : Nat) : FetchOutcome → List Char
  | FetchOutcome.ok _ => []
  | FetchOutcome.timeout _ => msgTimeoutPre ++ (Nat.repr timeoutSecs).data ++ msgTimeoutSuf
  | FetchOutcome.requestError m => msgRequestFailedPre ++ m
  | FetchOutcome.otherError m => msgUnexpectedPre ++ m

/-- BaseScraper.handle_request_errors: log and wrap the message with
create_error_response. -/
def handleRequestErrors (timeoutSecs : Nat) (e : FetchOutcome) (pt : Nat) (ts : List Char) : Envelope :=
  createErrorResponse (errMsgOf timeoutSecs e) pt ts

/-- TextScraper._create_empty_response: failure envelope carrying every
payload field of a success envelope at its empty/zero value. -/
def textEmptyResponse (msg : List Char) (pt : Nat) (ts : List Char) : Envelope :=
  [(fSuccess, Val.vb false), (fText, Val.vs []), (fTitle, Val.vs []),
   (fMetaDescription, Val.vs []), (fHeadings, Val.vheads []),
   (fWordCount, Val.vn 0), (fCharacterCount, Val.vn 0),
   (fProcessingTime, Val.vn pt), (fTimestamp, Val.vs ts), (fError, Val.vs msg)]

/-- The headings dict as an envelope value. -/
def headingsVal (h : Headings) : Val :=
  Val.vheads [(kH1, h.h1), (kH2, h.h2), (kH3, h.h3), (kH4, h.h4), (kH5, h.h5), (kH6, h.h6)]

/-- The success envelope built at the end of TextScraper.scrape. -/
def textSuccessEnvelope (td : TextData) (pt : Nat) (ts : List Char) : Envelope :=
  [(fSuccess, Val.vb true), (fText, Val.vs td.text), (fTitle, Val.vs td.title),
   (fMetaDescription, Val.vs td.meta_description), (fHeadings, headingsVal td.headings),
   (fWordCount, Val.vn td.word_count), (fCharacterCount, Val.vn td.character_count),
   (fProcessingTime, Val.vn pt), (fTimestamp, Val.vs ts), (fError, Val.vnone)]

def msgTooLargePre : List Char := "Content too large: ".data
def msgTooLargeMid : List Char := " bytes (max: ".data
def msgParenClose : List Char := ")".data

/-- The `Content too large` message of TextScraper.scrape. -/
def contentTooLargeMsg (n maxLen : Nat) : List Char :=
  msgTooLargePre ++ (Nat.repr n).data ++ msgTooLargeMid ++ (Nat.repr maxLen).data ++ msgParenClose

/-- TextScraper.scrape: validate, fetch, enforce MAX_CONTENT_LENGTH,
parse and extract; exceptions route through handle_request_errors.  The
network fetch and the HTML parser are parameters (`fetch`, `parse`). -/
def textScrape (parse : List Char → NodeList) (maxLen timeoutSecs : Nat)
    (url : List Char) (fetch : FetchOutcome) (pt : Nat) (ts : List Char) : Envelope :=
  match validate_url url with
  | Except.error e => textEmptyResponse e pt ts
  | Except.ok _ =>
    match fetch with
    | FetchOutcome.ok body =>
      if body.length > maxLen then
        textEmptyResponse (contentTooLargeMsg body.length maxLen) pt ts
      else
        textSuccessEnvelope (extractTextContent (parse body)) pt ts
    | e => handleRequestErrors timeoutSecs e pt ts

/-- URLScraper._create_empty_response. -/
def urlEmptyResponse (msg : List Char) (pt : Nat) (ts : List Char) : Envelope :=
  [(fSuccess, Val.vb false), (fUrls, Val.vlinks []), (fCount, Val.vn 0),
   (fProcessingTime, Val.vn pt), (fTimestamp, Val.vs ts), (fError, Val.vs msg)]

/-- The success envelope built at the end of URLScraper.scrape. -/
def urlSuccessEnvelope (links : List Link) (pt : Nat) (ts : List Char) : Envelope :=
  [(fSuccess, Val.vb true), (fUrls, Val.vlinks links), (fCount, Val.vn links.length),
   (fProcessingTime, Val.vn pt), (fTimestamp, Val.vs ts), (fError, Val.vnone)]

/-- URLScraper.scrape: validate, fetch, parse and extract the links
against the validated URL as base; exceptions route through
handle_request_errors.  Note: no content-length check is performed. -/
def urlScrape (parse : List Char → NodeList) (uj : List Char → List Char → List Char)
    (timeoutSecs : Nat) (url : List Char) (fetch : FetchOutcome) (pt : Nat) (ts : List Char) : Envelope :=
  match validate_url url with
  | Except.error e => urlEmptyResponse e pt ts
  | Except.ok u =>
    match fetch with
    | FetchOutcome.ok body => urlSuccessEnvelope (extractLinks uj (parse body) u) pt ts
    | e => handleRequestErrors timeoutSecs e pt ts

/-! Theorems. -/

/-- Claim C3, counterexample: the single-space input is whitespace-only,
so by the claim it should fail with a ValidationError; the code checks
falsiness before stripping, so it instead normalizes to `https://` with
no error. -/
theorem C3_counterexample : validate_url [' '] = Except.ok kHttpsPre := by
  rfl

/-- Claim C3, amended: validation fails (with the `URL cannot be empty`
error) exactly on the empty raw input — the emptiness check runs before
trimming, so whitespace-only inputs do not fail; every non-empty input is
trimmed and, when the trimmed string lacks an `http://`/`https://`
prefix, `https://` is prepended, never an error. -/
theorem C3_validate_url_amended : ∀ url : List Char,
    ((∃ m, validate_url url = Except.error m) ↔ url = []) ∧
    (url ≠ [] → validate_url url =
      Except.ok (if kHttpPre.isPrefixOf (pyStrip url) || kHttpsPre.isPrefixOf (pyStrip url)
                 then pyStrip url else kHttpsPre ++ pyStrip url)) := by
  intro url
  cases url with
  | nil =>
    refine ⟨⟨fun _ => rfl, fun _ => ⟨msgUrlEmpty, rfl⟩⟩, fun h => absurd rfl h⟩
  | cons c cs =>
    constructor
    · constructor
      · rintro ⟨m, hm⟩
        simp only [validate_url, List.isEmpty_cons, Bool.false_eq_true, if_false] at hm
        split at hm <;> exact absurd hm (by simp)
      · intro h
        exact absurd h (by simp)
    · intro _
      simp only [validate_url, List.isEmpty_cons, Bool.false_eq_true, if_false]
      split <;> rfl

/-- Claim C3, witness for the amended theorem at the concrete inputs
`" x"` (prefix added after trimming) and `"http://x"` (kept). -/
theorem C3_witness :
    validate_url [' ', 'x'] = Except.ok (kHttpsPre ++ ['x']) ∧
    validate_url ('h' :: 't' :: 't' :: 'p' :: ':' :: '/' :: '/' :: ['x']) =
      Except.ok ('h' :: 't' :: 't' :: 'p' :: ':' :: '/' :: '/' :: ['x']) := by
  constructor
  · rw [(C3_validate_url_amended [' ', 'x']).2 (by decide)]
    rfl
  · rw [(C3_validate_url_amended _).2 (by decide)]
    rfl

def exMailtoFragment : List Char := "mailto:#fragment".data

/-- Claim C5: link_type classification follows the code's if/elif chain,
first match wins — mailto: email, tel: phone, ftp: ftp, leading `#`
anchor, javascript: javascript, then a lowercase file suffix, else web;
in particular `mailto:#fragment` is email, not anchor. -/
theorem C5_link_type_precedence : ∀ href : List Char,
    (kMailto.isPrefixOf href = true → getLinkType href = kEmail) ∧
    (kMailto.isPrefixOf href = false → kTel.isPrefixOf href = true →
      getLinkType href = kPhone) ∧
    (kMailto.isPrefixOf href = false → kTel.isPrefixOf href = false →
      kFtpColon.isPrefixOf href = true → getLinkType href = kFtpType) ∧
    (kMailto.isPrefixOf href = false → kTel.isPrefixOf href = false →
      kFtpColon.isPrefixOf href = false → href.head? = some '#' →
      getLinkType href = kAnchorType) ∧
    (kMailto.isPrefixOf href = false → kTel.isPrefixOf href = false →
      kFtpColon.isPrefixOf href = false → href.head? ≠ some '#' →
      kJavascriptColon.isPrefixOf href = true → getLinkType href = kJavascriptType) ∧
    (kMailto.isPrefixOf href = false → kTel.isPrefixOf href = false →
      kFtpColon.isPrefixOf href = false → href.head? ≠ some '#' →
      kJavascriptColon.isPrefixOf href = false →
      fileExts.any (fun e => e.isSuffixOf (lowerList href)) = true →
      getLinkType href = kFileType) ∧
    (kMailto.isPrefixOf href = false → kTel.isPrefixOf href = false →
      kFtpColon.isPrefixOf href = false → href.head? ≠ some '#' →
      kJavascriptColon.isPrefixOf href = false →
      fileExts.any (fun e => e.isSuffixOf (lowerList href)) = false →
      getLinkType href = kWebType) ∧
    getLinkType exMailtoFragment = kEmail := by
  intro href
  refine ⟨?_, ?_, ?_, ?_, ?_, ?_, ?_, by rfl⟩ <;>
    · intros
      simp only [getLinkType, *, if_true, if_false, Bool.false_eq_true]
      try simp_all [getLinkType]

/-- Claim C5, witness: every branch of the precedence chain exercised at
a concrete href. -/
theorem C5_witness :
    getLinkType kMailto = kEmail ∧
    getLinkType kTel = kPhone ∧
    getLinkType kFtpColon = kFtpType ∧
    getLinkType ['#', 't'] = kAnchorType ∧
    getLinkType kJavascriptColon = kJavascriptType ∧
    getLinkType ('x' :: '.' :: 'p' :: 'd' :: ['f']) = kFileType ∧
    getLinkType ['x'] = kWebType :=
  ⟨(C5_link_type_precedence kMailto).1 (by decide),
   (C5_link_type_precedence kTel).2.1 (by decide) (by decide),
   (C5_link_type_precedence kFtpColon).2.2.1 (by decide) (by decide) (by decide),
   (C5_link_type_precedence ['#', 't']).2.2.2.1 (by decide) (by decide) (by decide) (by decide),
   (C5_link_type_precedence kJavascriptColon).2.2.2.2.1 (by decide) (by decide) (by decide)
     (by decide) (by decide),
   (C5_link_type_precedence _).2.2.2.2.2.1 (by decide) (by decide) (by decide) (by decide)
     (by decide) (by decide),
   (C5_link_type_precedence ['x']).2.2.2.2.2.2.1 (by decide) (by decide) (by decide) (by decide)
     (by decide) (by decide)⟩

/-- Claim C6: is_external is true iff both URLs parse and the link URL's
host differs from the base URL's host and is non-empty; equal hosts give
false, an empty link host gives false, and a parse failure of either URL
(a ValueError from urlparse, e.g. a mismatched bracket in the authority)
lands in the except branch, yielding false and never an error. -/
theorem C6_is_external : ∀ link base : List Char,
    (isExternalLink link base = true ↔
      ∃ ld bd, pyNetloc link = some ld ∧ pyNetloc base = some bd ∧ ld ≠ bd ∧ ld ≠ []) ∧
    (∀ ld bd, pyNetloc link = some ld → pyNetloc base = some bd → ld = bd →
      isExternalLink link base = false) ∧
    (pyNetloc link = some [] → isExternalLink link base = false) ∧
    ((pyNetloc link = none ∨ pyNetloc base = none) → isExternalLink link base = false) := by
  intro link base
  refine ⟨?_, ?_, ?_, ?_⟩
  · cases hl : pyNetloc link with
    | none => simp [isExternalLink, hl]
    | some ld =>
      cases hb : pyNetloc base with
      | none => simp [isExternalLink, hl, hb]
      | some bd => simp [isExternalLink, hl, hb, List.isEmpty_iff]
  · intro ld bd hl hb heq
    subst heq
    simp [isExternalLink, hl, hb]
  · intro hl
    cases hb : pyNetloc base with
    | none => simp [isExternalLink, hl, hb]
    | some bd => simp [isExternalLink, hl, hb]
  · rintro (h | h)
    · simp [isExternalLink, h]
    · cases hl : pyNetloc link with
      | none => simp [isExternalLink, hl]
      | some ld => simp [isExternalLink, hl, h]

def exLinkOther : List Char := "https://o.c".data
def exBase : List Char := "https://s.c".data
def exHostO : List Char := "o.c".data
def exHostS : List Char := "s.c".data

/-- A URL on which urlparse raises ValueError (mismatched bracket in the
authority), exercising the except-branch of _is_external_link. -/
def exBadBracket : List Char := "http://[x".data

/-- Claim C6, witness: a different-host link, a same-host link, a
hostless (mailto) link, and an unparseable link (mismatched bracket,
where urlparse raises and the except branch returns False), all against
the base `https://s.c`. -/
theorem C6_witness :
    isExternalLink exLinkOther exBase = true ∧
    isExternalLink exBase exBase = false ∧
    isExternalLink (kMailto ++ ['x']) exBase = false ∧
    isExternalLink exBadBracket exBase = false :=
  ⟨((C6_is_external exLinkOther exBase).1).mpr
      ⟨exHostO, exHostS, rfl, rfl, by decide, by decide⟩,
   (C6_is_external exBase exBase).2.1 exHostS exHostS rfl rfl rfl,
   (C6_is_external (kMailto ++ ['x']) exBase).2.2.1 rfl,
   (C6_is_external exBadBracket exBase).2.2.2 (Or.inl rfl)⟩

/-- Claim C7: the link ids of an extraction are exactly 1, 2, ..., n in
document order, for every document, base URL and url-join function. -/
theorem C7_link_ids_contiguous :
    ∀ (uj : List Char → List Char → List Char) (d : NodeList) (base : List Char),
    (extractLinks uj d base).map Link.id = List.range' 1 (extractLinks uj d base).length := by
  intro uj d base
  have h2 : ∀ l : List Node,
      (List.enum l).map (fun pr : Nat × Node => pr.1 + 1) = List.range' 1 l.length := by
    intro l
    calc (List.enum l).map (fun pr : Nat × Node => pr.1 + 1)
        = ((List.enum l).map Prod.fst).map (fun i => i + 1) := by
          rw [List.map_map]
          rfl
      _ = (List.range l.length).map (fun i => i + 1) := by rw [List.enum_map_fst]
      _ = List.range' 1 l.length := by
          rw [List.range'_eq_map_range]
          exact List.map_congr_left fun i _ => by omega
  simp only [extractLinks, List.map_map, List.length_map, List.enum_length]
  exact h2 _

/-- Helper: on a non-empty input, validate_url always succeeds, with the
prefix normalization applied to the stripped string. -/
theorem validate_url_ok (c : Char) (cs : List Char) :
    validate_url (c :: cs) =
      Except.ok (if kHttpPre.isPrefixOf (pyStrip (c :: cs)) ||
                    kHttpsPre.isPrefixOf (pyStrip (c :: cs))
                 then pyStrip (c :: cs) else kHttpsPre ++ pyStrip (c :: cs)) := by
  simp only [validate_url, List.isEmpty_cons, Bool.false_eq_true, if_false]
  split <;> rfl

def parseNil : List Char → NodeList := fun _ => NodeList.nil

def ujSnd : List Char → List Char → List Char := fun _ h => h

/-- Claim C2, counterexample: URLScraper.scrape performs no content-length
check at all, so a one-byte body under a configured maximum of 0 bytes —
one byte over the limit — still yields a success envelope for
extract_links, where the claim demands a ContentTooLarge failure. -/
theorem C2_counterexample :
    envGet (urlScrape parseNil ujSnd 10 kHttpsPre (FetchOutcome.ok ['x']) 0 []) fSuccess =
      some (Val.vb true) ∧
    envGet (urlScrape parseNil ujSnd 10 kHttpsPre (FetchOutcome.ok ['x']) 0 []) fError =
      some Val.vnone :=
  ⟨rfl, rfl⟩

/-- Claim C2, amended: only extract_text enforces MAX_CONTENT_LENGTH — a
body strictly over the limit fails with the Content too large message
before any extraction, and a body at or under the limit (in particular
exactly at it) succeeds; extract_links performs no content-length check
and succeeds on a fetched body of any size. -/
theorem C2_content_length_amended :
    ∀ (parse : List Char → NodeList) (uj : List Char → List Char → List Char)
      (maxLen tmo pt : Nat) (ts body : List Char) (url : List Char),
    url ≠ [] →
    ((body.length > maxLen →
        textScrape parse maxLen tmo url (FetchOutcome.ok body) pt ts =
          textEmptyResponse (contentTooLargeMsg body.length maxLen) pt ts) ∧
     (body.length ≤ maxLen →
        envGet (textScrape parse maxLen tmo url (FetchOutcome.ok body) pt ts) fSuccess =
          some (Val.vb true)) ∧
     envGet (urlScrape parse uj tmo url (FetchOutcome.ok body) pt ts) fSuccess =
       some (Val.vb true)) := by
  intro parse uj maxLen tmo pt ts body url hurl
  cases url with
  | nil => exact absurd rfl hurl
  | cons c cs =>
    refine ⟨?_, ?_, ?_⟩
    · intro hgt
      simp only [textScrape, validate_url_ok, if_pos hgt]
    · intro hle
      simp only [textScrape, validate_url_ok, if_neg (Nat.not_lt.mpr hle)]
      rfl
    · simp only [urlScrape, validate_url_ok]
      rfl

/-- Claim C2, witness: with a limit of 2 bytes, a 3-byte body fails for
extract_text with the Content too large message, a 2-byte body (exactly
at the limit) succeeds, and extract_links succeeds on the 3-byte body. -/
theorem C2_witness :
    textScrape parseNil 2 10 ['x'] (FetchOutcome.ok ['a', 'b', 'c']) 0 [] =
      textEmptyResponse (contentTooLargeMsg 3 2) 0 [] ∧
    envGet (textScrape parseNil 2 10 ['x'] (FetchOutcome.ok ['a', 'b']) 0 []) fSuccess =
      some (Val.vb true) ∧
    envGet (urlScrape parseNil ujSnd 10 ['x'] (FetchOutcome.ok ['a', 'b', 'c']) 0 []) fSuccess =
      some (Val.vb true) :=
  ⟨(C2_content_length_amended parseNil ujSnd 2 10 0 [] ['a', 'b', 'c'] ['x'] (by decide)).1
      (by decide),
   (C2_content_length_amended parseNil ujSnd 2 10 0 [] ['a', 'b'] ['x'] (by decide)).2.1
      (by decide),
   (C2_content_length_amended parseNil ujSnd 2 10 0 [] ['a', 'b', 'c'] ['x'] (by decide)).2.2⟩

/-- Claim C1, counterexample: a timeout failure of extract_text returns
the envelope of BaseScraper.create_error_response, which carries only
success, processing_time, timestamp and error — the payload fields (text,
title, ... urls, count) of a success envelope are absent, where the claim
demands the same payload field set with empty values. -/
theorem C1_counterexample :
    envKeys (textScrape parseNil 100 10 kHttpsPre (FetchOutcome.timeout []) 0 []) =
      [fSuccess, fProcessingTime, fTimestamp, fError] ∧
    fText ∉ envKeys (textScrape parseNil 100 10 kHttpsPre (FetchOutcome.timeout []) 0 []) ∧
    envKeys (urlScrape parseNil ujSnd 10 kHttpsPre (FetchOutcome.timeout []) 0 []) =
      [fSuccess, fProcessingTime, fTimestamp, fError] ∧
    fUrls ∉ envKeys (urlScrape parseNil ujSnd 10 kHttpsPre (FetchOutcome.timeout []) 0 []) :=
  ⟨rfl, by decide, rfl, by decide⟩

/-- Claim C1, amended: failures detected inline — URL validation failure,
and the content-too-large case of extract_text — return the scraper's
empty response, which carries exactly the payload field set of a success
envelope at zero values with success false and a non-empty error; but
failures raised as exceptions (timeout, request failure, unexpected
error) return create_error_response, an envelope with only success,
processing_time, timestamp and a non-empty error, lacking the payload
fields entirely. -/
theorem C1_envelope_amended :
    ∀ (parse : List Char → NodeList) (uj : List Char → List Char → List Char)
      (maxLen tmo pt : Nat) (ts body msg url : List Char) (td : TextData) (f : FetchOutcome),
    (textScrape parse maxLen tmo [] f pt ts = textEmptyResponse msgUrlEmpty pt ts) ∧
    (urlScrape parse uj tmo [] f pt ts = urlEmptyResponse msgUrlEmpty pt ts) ∧
    (url ≠ [] → body.length > maxLen →
      textScrape parse maxLen tmo url (FetchOutcome.ok body) pt ts =
        textEmptyResponse (contentTooLargeMsg body.length maxLen) pt ts) ∧
    (url ≠ [] →
      textScrape parse maxLen tmo url (FetchOutcome.timeout msg) pt ts =
        createErrorResponse (errMsgOf tmo (FetchOutcome.timeout msg)) pt ts ∧
      textScrape parse maxLen tmo url (FetchOutcome.requestError msg) pt ts =
        createErrorResponse (errMsgOf tmo (FetchOutcome.requestError msg)) pt ts ∧
      textScrape parse maxLen tmo url (FetchOutcome.otherError msg) pt ts =
        createErrorResponse (errMsgOf tmo (FetchOutcome.otherError msg)) pt ts ∧
      urlScrape parse uj tmo url (FetchOutcome.timeout msg) pt ts =
        createErrorResponse (errMsgOf tmo (FetchOutcome.timeout msg)) pt ts ∧
      urlScrape parse uj tmo url (FetchOutcome.requestError msg) pt ts =
        createErrorResponse (errMsgOf tmo (FetchOutcome.requestError msg)) pt ts ∧
      urlScrape parse uj tmo url (FetchOutcome.otherError msg) pt ts =
        createErrorResponse (errMsgOf tmo (FetchOutcome.otherError msg)) pt ts) ∧
    (envKeys (textEmptyResponse msg pt ts) = envKeys (textSuccessEnvelope td pt ts)) ∧
    (envKeys (urlEmptyResponse msg pt ts) =
      envKeys (urlSuccessEnvelope (extractLinks uj (parse body) url) pt ts)) ∧
    (envGet (textEmptyResponse msg pt ts) fSuccess = some (Val.vb false) ∧
     envGet (urlEmptyResponse msg pt ts) fSuccess = some (Val.vb false) ∧
     envGet (createErrorResponse msg pt ts) fSuccess = some (Val.vb false)) ∧
    (fText ∉ envKeys (createErrorResponse msg pt ts) ∧
     fUrls ∉ envKeys (createErrorResponse msg pt ts)) ∧
    (errMsgOf tmo (FetchOutcome.timeout msg) ≠ [] ∧
     errMsgOf tmo (FetchOutcome.requestError msg) ≠ [] ∧
     errMsgOf tmo (FetchOutcome.otherError msg) ≠ [] ∧ msgUrlEmpty ≠ []) := by
  intro parse uj maxLen tmo pt ts body msg url td f
  refine ⟨rfl, rfl, ?_, ?_, rfl, rfl, ⟨rfl, rfl, rfl⟩,
    ⟨by show fText ∉ [fSuccess, fProcessingTime, fTimestamp, fError]; decide,
     by show fUrls ∉ [fSuccess, fProcessingTime, fTimestamp, fError]; decide⟩,
    ⟨List.cons_ne_nil _ _, List.cons_ne_nil _ _, List.cons_ne_nil _ _, by decide⟩⟩
  · intro hurl hgt
    cases url with
    | nil => exact absurd rfl hurl
    | cons c cs => simp only [textScrape, validate_url_ok, if_pos hgt]
  · intro hurl
    cases url with
    | nil => exact absurd rfl hurl
    | cons c cs =>
      refine ⟨?_, ?_, ?_, ?_, ?_, ?_⟩ <;> simp only [textScrape, urlScrape, validate_url_ok] <;> rfl

/-- Claim C1, witness for the amended theorem: the inline and exception
failure paths at concrete inputs. -/
theorem C1_witness :
    textScrape parseNil 9 10 [] (FetchOutcome.ok []) 0 [] =
      textEmptyResponse msgUrlEmpty 0 [] ∧
    textScrape parseNil 0 10 ['x'] (FetchOutcome.ok ['y']) 0 [] =
      textEmptyResponse (contentTooLargeMsg 1 0) 0 [] ∧
    urlScrape parseNil ujSnd 10 ['x'] (FetchOutcome.otherError ['e']) 0 [] =
      createErrorResponse (errMsgOf 10 (FetchOutcome.otherError ['e'])) 0 [] := by
  have h := C1_envelope_amended parseNil ujSnd 0 10 0 [] ['y'] ['e'] ['x']
    (extractTextContent NodeList.nil) (FetchOutcome.ok [])
  exact ⟨(C1_envelope_amended parseNil ujSnd 9 10 0 [] [] [] [] (extractTextContent NodeList.nil)
            (FetchOutcome.ok [])).1,
         h.2.2.1 (by decide) (by decide),
         (h.2.2.2.1 (by decide)).2.2.2.2.2⟩

def kFallback : List Char := "Fallback".data

/-- Document with a `<title>` whose text strips to empty, next to an
og:title meta carrying the content `Fallback`. -/
def exTitleWsDoc : NodeList :=
  nl [Node.elem kTitleTag [] (nl [Node.text [' ']]),
      Node.elem kMeta [(kProperty, kOgTitle), (kContent, kFallback)] (nl [])]

/-- Claim C4, counterexample: the claim's fallback chain consults
candidates until one yields a non-empty value, so on `exTitleWsDoc` (a
whitespace-only `<title>`, then og:title content `Fallback`) it would
produce `Fallback`; the code stops at the present `<title>` element and
returns its stripped — empty — text. -/
theorem C4_counterexample :
    extractTitle exTitleWsDoc = [] ∧ kFallback ≠ [] :=
  ⟨rfl, by decide⟩

/-- Claim C4, amended: the title fallback chain consults `<title>`, then
the og:title meta, then the first `<h1>`, but each step fires on the
presence of the element (a found tag is truthy in bs4), not on its
yielding a non-empty value: a present `<title>` returns its stripped
text even when empty, a present og:title meta returns its content
attribute (empty when absent), else the first `<h1>`'s stripped text,
else the empty string. -/
theorem C4_title_amended : ∀ d : NodeList,
    (∀ t, findFirst (tagIs kTitleTag) d = some t → extractTitle d = getTextStripNode t) ∧
    (findFirst (tagIs kTitleTag) d = none →
      ∀ m, findFirst (metaWith kProperty kOgTitle) d = some m →
      extractTitle d = contentOf m) ∧
    (findFirst (tagIs kTitleTag) d = none →
      findFirst (metaWith kProperty kOgTitle) d = none →
      ∀ h, findFirst (tagIs kH1) d = some h → extractTitle d = getTextStripNode h) ∧
    (findFirst (tagIs kTitleTag) d = none →
      findFirst (metaWith kProperty kOgTitle) d = none →
      findFirst (tagIs kH1) d = none → extractTitle d = []) := by
  intro d
  refine ⟨?_, ?_, ?_, ?_⟩
  · intro t ht
    simp only [extractTitle, ht]
  · intro h1 m hm
    simp only [extractTitle, h1, hm]
  · intro h1 h2 h hh
    simp only [extractTitle, h1, h2, hh]
  · intro h1 h2 h3
    simp only [extractTitle, h1, h2, h3]

def exTitleNode : Node := Node.elem kTitleTag [] (nl [Node.text ['T']])
def exOgNode : Node := Node.elem kMeta [(kProperty, kOgTitle), (kContent, kFallback)] (nl [])
def exH1Node : Node := Node.elem kH1 [] (nl [Node.text ['H']])

/-- Claim C4, witness: every branch of the amended chain exercised on a
concrete document. -/
theorem C4_witness :
    extractTitle (nl [exTitleNode]) = ['T'] ∧
    extractTitle (nl [exOgNode]) = kFallback ∧
    extractTitle (nl [exH1Node]) = ['H'] ∧
    extractTitle (nl []) = [] := by
  refine ⟨?_, ?_, ?_, ?_⟩
  · rw [(C4_title_amended (nl [exTitleNode])).1 exTitleNode rfl]
    rfl
  · rw [(C4_title_amended (nl [exOgNode])).2.1 rfl exOgNode rfl]
    rfl
  · rw [(C4_title_amended (nl [exH1Node])).2.2.1 rfl rfl exH1Node rfl]
    rfl
  · exact (C4_title_amended (nl [])).2.2.2 rfl rfl rfl

/-- Helper: searching the noise-removed forest is the same as searching
the original forest while skipping every noise subtree (with noise
removal applied below each surviving hit). -/
theorem findAll_removeNoise (p : List Char → List (List Char × List Char) → Bool) :
    ∀ d : NodeList,
    findAllForest p (removeNoiseForest d) = (findSkipForest p d).map removeNoiseNode
  | NodeList.nil => by
    simp [removeNoiseForest, findSkipForest, findAllForest]
  | NodeList.cons (Node.text s) rest => by
    simp [removeNoiseForest, findSkipForest, findAllForest, findAllNode, findSkipNode,
      findAll_removeNoise p rest]
  | NodeList.cons (Node.elem t a cs) rest => by
    by_cases h : isNoiseElem t a
    · simp [removeNoiseForest, findSkipForest, findSkipNode, h, findAll_removeNoise p rest]
    · simp [removeNoiseForest, findSkipForest, findSkipNode, findAllForest, findAllNode, h,
        findAll_removeNoise p cs, findAll_removeNoise p rest, removeNoiseNode]
      split <;> simp [removeNoiseNode]
termination_by d => sizeOf d

/-- Reference headings extraction for claim C10: traverse the original
document, skip noise subtrees, and take each surviving heading's text
after noise removal inside it. -/
def extractHeadingsSkip (d : NodeList) : Headings where
  h1 := (findSkipForest (tagIs kH1) d).map (fun n => getTextStripNode (removeNoiseNode n))
  h2 := (findSkipForest (tagIs kH2) d).map (fun n => getTextStripNode (removeNoiseNode n))
  h3 := (findSkipForest (tagIs kH3) d).map (fun n => getTextStripNode (removeNoiseNode n))
  h4 := (findSkipForest (tagIs kH4) d).map (fun n => getTextStripNode (removeNoiseNode n))
  h5 := (findSkipForest (tagIs kH5) d).map (fun n => getTextStripNode (removeNoiseNode n))
  h6 := (findSkipForest (tagIs kH6) d).map (fun n => getTextStripNode (removeNoiseNode n))

/-- First match of a skip-noise traversal. -/
def findFirstSkip (p : List Char → List (List Char × List Char) → Bool) (d : NodeList) : Option Node :=
  (findSkipForest p d).head?

/-- Reference title extraction for claim C10: the fallback chain of
_extract_title run over the noise-skipping traversal. -/
def extractTitleSkip (d : NodeList) : List Char :=
  match findFirstSkip (tagIs kTitleTag) d with
  | some t => getTextStripNode (removeNoiseNode t)
  | none =>
    match findFirstSkip (metaWith kProperty kOgTitle) d with
    | some m => contentOf (removeNoiseNode m)
    | none =>
      match findFirstSkip (tagIs kH1) d with
      | some h => getTextStripNode (removeNoiseNode h)
      | none => []

/-- Reference meta-description extraction for claim C10. -/
def extractMetaDescriptionSkip (d : NodeList) : List Char :=
  match findFirstSkip (metaWith kNameAttr kDescription) d with
  | some m => contentOf (removeNoiseNode m)
  | none =>
    match findFirstSkip (metaWith kProperty kOgDescription) d with
    | some m => contentOf (removeNoiseNode m)
    | none => []

/-- Helper: the two title extractions agree once noise removal and
skipping are identified. -/
theorem extractTitle_removeNoise (d : NodeList) :
    extractTitle (removeNoiseForest d) = extractTitleSkip d := by
  unfold extractTitle extractTitleSkip findFirst findFirstSkip
  rw [findAll_removeNoise, List.head?_map]
  cases (findSkipForest (tagIs kTitleTag) d).head? with
  | some t => rfl
  | none =>
    rw [findAll_removeNoise, List.head?_map]
    cases (findSkipForest (metaWith kProperty kOgTitle) d).head? with
    | some m => rfl
    | none =>
      rw [findAll_removeNoise, List.head?_map]
      cases (findSkipForest (tagIs kH1) d).head? with
      | some h => rfl
      | none => rfl

/-- Helper: the two meta-description extractions agree once noise removal
and skipping are identified. -/
theorem extractMetaDescription_removeNoise (d : NodeList) :
    extractMetaDescription (removeNoiseForest d) = extractMetaDescriptionSkip d := by
  unfold extractMetaDescription extractMetaDescriptionSkip findFirst findFirstSkip
  rw [findAll_removeNoise, List.head?_map]
  cases (findSkipForest (metaWith kNameAttr kDescription) d).head? with
  | some m => rfl
  | none =>
    rw [findAll_removeNoise, List.head?_map]
    cases (findSkipForest (metaWith kProperty kOgDescription) d).head? with
    | some m => rfl
    | none => rfl

/-- Claim C10: title, meta description and the headings map come from the
document after noise removal — they equal the result of a traversal of
the original document that skips every noise subtree (script/style,
nav/header/footer/aside, or class/id containing a noise substring).  In
particular a heading inside such an element contributes no entry to the
headings map and cannot serve as the h1 title fallback. -/
theorem C10_metadata_after_noise_removal : ∀ d : NodeList,
    (extractTextContent d).headings = extractHeadingsSkip d ∧
    (extractTextContent d).title = extractTitleSkip d ∧
    (extractTextContent d).meta_description = extractMetaDescriptionSkip d := by
  intro d
  refine ⟨?_, extractTitle_removeNoise d, extractMetaDescription_removeNoise d⟩
  show extractHeadings (removeNoiseForest d) = extractHeadingsSkip d
  unfold extractHeadings extractHeadingsSkip
  simp only [findAll_removeNoise, List.map_map]
  rfl

/-!
Towards claim C8 (idempotence of _clean_text).  A cleaned string is
characterised by: every whitespace character in it is a plain space, no
space is followed by whitespace, and it neither starts nor ends with
whitespace.  Cleaning always produces such a string, and cleaning leaves
such a string unchanged.
-/

/-- No space directly followed by whitespace (in particular no two
adjacent spaces, and no space before a tab or newline). -/
def NoPair (a b : Char) : Prop := ¬(a = ' ' ∧ pyIsSpace b = true)

/-- Shape of a fully cleaned string. -/
def normReady (l : List Char) : Prop :=
  (∀ c ∈ l, pyIsSpace c = true → c = ' ') ∧
  List.Chain' NoPair l ∧
  (∀ c ∈ l.head?, pyIsSpace c = false) ∧
  (∀ c ∈ l.getLast?, pyIsSpace c = false)

theorem lineBoundary_isSpace {c : Char} (h : isLineBoundary c = true) :
    pyIsSpace c = true ∧ c ≠ ' ' := by
  simp only [isLineBoundary, Bool.or_eq_true, beq_iff_eq] at h
  rcases h with (((((((((h | h) | h) | h) | h) | h) | h) | h) | h) | h) <;> subst h <;>
    exact ⟨by decide, by decide⟩

theorem collapseWs_spaces : ∀ l, ∀ c ∈ collapseWs l, pyIsSpace c = true → c = ' ' := by
  intro l
  induction l with
  | nil => intro c hc; cases hc
  | cons a rest ih =>
    intro c hc hsp
    simp only [collapseWs] at hc
    by_cases ha : pyIsSpace a
    · rw [if_pos ha] at hc
      by_cases hh : (collapseWs rest).head? == some ' '
      · rw [if_pos hh] at hc
        exact ih c hc hsp
      · rw [if_neg hh] at hc
        rcases List.mem_cons.mp hc with h | h
        · exact h
        · exact ih c h hsp
    · rw [if_neg ha] at hc
      rcases List.mem_cons.mp hc with h | h
      · exact absurd (h ▸ hsp) ha
      · exact ih c h hsp

theorem collapseWs_chain : ∀ l, List.Chain' NoPair (collapseWs l) := by
  intro l
  induction l with
  | nil => exact List.chain'_nil
  | cons a rest ih =>
    simp only [collapseWs]
    by_cases ha : pyIsSpace a
    · rw [if_pos ha]
      by_cases hh : (collapseWs rest).head? == some ' '
      · rw [if_pos hh]
        exact ih
      · rw [if_neg hh]
        refine List.chain'_cons'.mpr ⟨?_, ih⟩
        intro y hy hpair
        rcases hpair with ⟨_, hysp⟩
        have hyb : y = ' ' := collapseWs_spaces rest y (List.mem_of_mem_head? hy) hysp
        subst hyb
        have hhead : (collapseWs rest).head? = some ' ' := Option.mem_def.mp hy
        exact hh (by simp [hhead])
    · rw [if_neg ha]
      refine List.chain'_cons'.mpr ⟨?_, ih⟩
      intro y _ hpair
      rcases hpair with ⟨haeq, _⟩
      exact ha (haeq ▸ (by decide : pyIsSpace ' ' = true))

theorem collapseWs_eq_self : ∀ l, (∀ c ∈ l, pyIsSpace c = true → c = ' ') →
    List.Chain' NoPair l → collapseWs l = l := by
  intro l
  induction l with
  | nil => intro _ _; rfl
  | cons a rest ih =>
    intro hsp hch
    have hrest : collapseWs rest = rest :=
      ih (fun c hc => hsp c (List.mem_cons_of_mem a hc)) (List.Chain'.tail hch)
    simp only [collapseWs, hrest]
    by_cases ha : pyIsSpace a
    · have haeq : a = ' ' := hsp a (List.mem_cons_self a rest) ha
      rw [if_pos ha]
      have hh : (rest.head? == some ' ') = false := by
        cases hr : rest.head? with
        | none => rfl
        | some y =>
          have hnp : NoPair a y := (List.chain'_cons'.mp hch).1 y hr
          have hy : y ≠ ' ' := by
            intro hy
            exact hnp ⟨haeq, hy ▸ (by decide : pyIsSpace ' ' = true)⟩
          simp [hy]
      rw [hh]
      simp [haeq]
    · rw [if_neg ha]

theorem dropWhile_eq_self_of_head {p : Char → Bool} :
    ∀ l : List Char, (∀ c ∈ l.head?, p c = false) → l.dropWhile p = l := by
  intro l h
  cases l with
  | nil => rfl
  | cons a t =>
    have ha := h a rfl
    simp [List.dropWhile_cons, ha]

theorem head_dropWhile_false {p : Char → Bool} :
    ∀ l : List Char, ∀ c ∈ (l.dropWhile p).head?, p c = false := by
  intro l
  induction l with
  | nil => intro c hc; cases hc
  | cons a t ih =>
    intro c hc
    by_cases ha : p a
    · rw [List.dropWhile_cons, if_pos ha] at hc
      exact ih c hc
    · rw [List.dropWhile_cons, if_neg ha] at hc
      cases hc
      exact Bool.eq_false_iff.mpr ha

theorem chainOfAppendLeft {α : Type _} {R : α → α → Prop} {l₁ l₂ : List α}
    (h : List.Chain' R (l₁ ++ l₂)) : List.Chain' R l₁ :=
  (List.chain'_append.mp h).1

theorem chainOfAppendRight {α : Type _} {R : α → α → Prop} {l₁ l₂ : List α}
    (h : List.Chain' R (l₁ ++ l₂)) : List.Chain' R l₂ :=
  (List.chain'_append.mp h).2.1

/-- A chain condition survives stripping, since the strip is a contiguous
part of the string. -/
theorem pyStrip_chain {R : Char → Char → Prop} {l : List Char} (h : List.Chain' R l) :
    List.Chain' R (pyStrip l) := by
  have h1 : List.Chain' R (l.dropWhile pyIsSpace) := by
    rcases List.dropWhile_suffix (l := l) pyIsSpace with ⟨t, ht⟩
    exact chainOfAppendRight (by rw [ht]; exact h)
  have h3 : pyStrip l <+: l.dropWhile pyIsSpace := by
    rw [← List.reverse_suffix, pyStrip, List.reverse_reverse]
    exact List.dropWhile_suffix pyIsSpace
  rcases h3 with ⟨t, ht⟩
  exact chainOfAppendLeft (by rw [ht]; exact h1)

theorem pyStrip_isInfix (l : List Char) : pyStrip l <:+: l := by
  have h1 : l.dropWhile pyIsSpace <:+ l := List.dropWhile_suffix pyIsSpace
  have h2 : (l.dropWhile pyIsSpace).reverse.dropWhile pyIsSpace <:+
      (l.dropWhile pyIsSpace).reverse := List.dropWhile_suffix pyIsSpace
  have h3 : pyStrip l <+: l.dropWhile pyIsSpace := by
    rw [← List.reverse_suffix, pyStrip, List.reverse_reverse]
    exact h2
  exact h3.isInfix.trans h1.isInfix

theorem prefix_head_eq {l₁ l₂ : List Char} (h : l₁ <+: l₂) (hne : l₁ ≠ []) :
    l₁.head? = l₂.head? := by
  rcases h with ⟨t, rfl⟩
  cases l₁ with
  | nil => exact absurd rfl hne
  | cons a t₁ => rfl

theorem pyStrip_head (l : List Char) : ∀ c ∈ (pyStrip l).head?, pyIsSpace c = false := by
  intro c hc
  have hne : pyStrip l ≠ [] := by
    intro h
    rw [h] at hc
    cases hc
  have h3 : pyStrip l <+: l.dropWhile pyIsSpace := by
    rw [← List.reverse_suffix, pyStrip, List.reverse_reverse]
    exact List.dropWhile_suffix pyIsSpace
  rw [prefix_head_eq h3 hne] at hc
  exact head_dropWhile_false l c hc

theorem pyStrip_last (l : List Char) : ∀ c ∈ (pyStrip l).getLast?, pyIsSpace c = false := by
  intro c hc
  rw [pyStrip, List.getLast?_reverse] at hc
  exact head_dropWhile_false (l.dropWhile pyIsSpace).reverse c hc

theorem pyStrip_eq_self (l : List Char)
    (h1 : ∀ c ∈ l.head?, pyIsSpace c = false)
    (h2 : ∀ c ∈ l.getLast?, pyIsSpace c = false) : pyStrip l = l := by
  rw [pyStrip, dropWhile_eq_self_of_head l h1, dropWhile_eq_self_of_head, List.reverse_reverse]
  intro c hc
  rw [List.head?_reverse] at hc
  exact h2 c hc

theorem normCRLF_eq_self : ∀ l : List Char, (∀ c ∈ l, c ≠ '\r') → normCRLF l = l
  | [] => fun _ => rfl
  | [c] => fun _ => rfl
  | a :: b :: rest => fun h => by
    have ha : a ≠ '\r' := h a (List.mem_cons_self _ _)
    have hcond : (a == '\r' && b == '\n') = false := by
      simp [ha]
    rw [normCRLF, hcond]
    simp only [Bool.false_eq_true, if_false]
    rw [normCRLF_eq_self (b :: rest) (fun c hc => h c (List.mem_cons_of_mem a hc))]

theorem splitlinesAux_no_boundary :
    ∀ l acc : List Char, (∀ c ∈ l, isLineBoundary c = false) →
    splitlinesAux l acc = [acc.reverse ++ l] := by
  intro l
  induction l with
  | nil => intro acc _; simp [splitlinesAux]
  | cons c rest ih =>
    intro acc h
    have hc : isLineBoundary c = false := h c (List.mem_cons_self _ _)
    rw [splitlinesAux]
    simp only [hc, Bool.false_eq_true, if_false]
    rw [ih (c :: acc) (fun x hx => h x (List.mem_cons_of_mem c hx))]
    simp

theorem splitlinesPy_single (l : List Char) (hne : l ≠ [])
    (h : ∀ c ∈ l, isLineBoundary c = false) : splitlinesPy l = [l] := by
  rw [splitlinesPy, if_neg hne, normCRLF_eq_self l
    (fun c hc heq => by subst heq; exact absurd (h _ hc) (by decide)),
    splitlinesAux_no_boundary l [] h]
  rfl

theorem splitTwoSpacesAux_chain :
    ∀ l acc : List Char, List.Chain' NoPair l → splitTwoSpacesAux l acc = [acc.reverse ++ l]
  | [], acc => fun _ => by simp [splitTwoSpacesAux]
  | [c], acc => fun _ => by simp [splitTwoSpacesAux]
  | a :: b :: rest, acc => fun hch => by
    have hnp : NoPair a b := (List.chain'_cons.mp hch).1
    have hcond : (a == ' ' && b == ' ') = false := by
      by_cases ha : a = ' '
      · by_cases hb : b = ' '
        · exact absurd ⟨ha, hb ▸ (by decide : pyIsSpace ' ' = true)⟩ hnp
        · simp [hb]
      · simp [ha]
    rw [splitTwoSpacesAux, hcond]
    simp only [Bool.false_eq_true, if_false]
    rw [splitTwoSpacesAux_chain (b :: rest) (a :: acc) (List.chain'_cons.mp hch).2]
    simp

/-- Cleaning always yields a string of the cleaned shape. -/
theorem cleanText_normReady (t : List Char) : normReady (cleanText t) := by
  show normReady (pyStrip (collapseWs _))
  refine ⟨?_, ?_, pyStrip_head _, pyStrip_last _⟩
  · intro c hc hsp
    exact collapseWs_spaces _ c ((pyStrip_isInfix _).sublist.mem hc) hsp
  · exact pyStrip_chain (collapseWs_chain _)

/-- Cleaning a string of the cleaned shape changes nothing. -/
theorem cleanText_eq_self (l : List Char) (h : normReady l) : cleanText l = l := by
  rcases h with ⟨hsp, hch, hhd, hlast⟩
  by_cases hne : l = []
  · subst hne
    rfl
  · have hnb : ∀ c ∈ l, isLineBoundary c = false := by
      intro c hc
      by_contra hb
      rcases lineBoundary_isSpace (Bool.of_not_eq_false hb) with ⟨hs, hns⟩
      exact hns (hsp c hc hs)
    have hstrip : pyStrip l = l := pyStrip_eq_self l hhd hlast
    show pyStrip (collapseWs (List.intercalate [' ']
      ((((splitlinesPy l).map pyStrip).map
        (fun line => (splitTwoSpaces line).map pyStrip)).flatten.filter
          (fun c => !c.isEmpty)))) = l
    rw [splitlinesPy_single l hne hnb]
    simp only [List.map_cons, List.map_nil, hstrip]
    have hsplit2 : splitTwoSpaces l = [l] := splitTwoSpacesAux_chain l [] hch
    rw [hsplit2]
    simp only [List.map_cons, List.map_nil, hstrip, List.flatten, List.append_nil]
    have hfil : List.filter (fun c => !c.isEmpty) [l] = [l] := by simp [hne]
    rw [hfil]
    have hint : List.intercalate [' '] [l] = l := by simp [List.intercalate]
    rw [hint, collapseWs_eq_self l hsp hch, hstrip]

/-- Claim C8: the text normalization of TextScraper._clean_text is
idempotent — applying it to its own output returns the output
unchanged, for every input string. -/
theorem C8_cleanText_idempotent : ∀ t : List Char, cleanText (cleanText t) = cleanText t :=
  fun t => cleanText_eq_self (cleanText t) (cleanText_normReady t)

/-- Claim C9: word_count is the number of whitespace-delimited tokens of
the returned cleaned text (0 when the text is empty) and character_count
is its length, for every document. -/
theorem C9_counts : ∀ d : NodeList,
    ((extractTextContent d).word_count = (pySplitWs (extractTextContent d).text).length ∧
     (extractTextContent d).character_count = (extractTextContent d).text.length) ∧
    ((extractTextContent d).text = [] → (extractTextContent d).word_count = 0) := by
  intro d
  refine ⟨⟨rfl, rfl⟩, ?_⟩
  intro h
  show (pySplitWs (extractTextContent d).text).length = 0
  rw [h]
  rfl

/-- Claim C9, witness: the empty document yields empty text and zero
word count. -/
theorem C9_witness :
    (extractTextContent NodeList.nil).text = [] ∧
    (extractTextContent NodeList.nil).word_count = 0 :=
  ⟨rfl, (C9_counts NodeList.nil).2 rfl⟩

end WebScraper
